import Mathlib

/-!
Verification of the CPIO header codec (`src/header.rs`).

The codec defines three `#[repr(C)]` record types — `OldHeader` (eleven
fields built from 16-bit native-binary slots), `OdcHeader` and `NewcHeader`
(byte arrays holding ASCII digits) — together with construction operations
that stamp a magic tag into a zeroed record, and a byte-projection
`as_bytes` implemented by an unsafe cast guarded by runtime size (and,
for the byte-dense variants, alignment) assertions.

The embedding models:
  * machine bytes as `Nat` values (reduced `% 256` where the code converts),
  * fixed-length `[u8; N]` fields as length-indexed lists (`Bytes n`),
  * `u16` fields as `Nat` with explicit native-endian byte (de)serialisation,
  * the `#[repr(C)]` struct layout (field offsets, size, alignment) by an
    explicit layout calculator,
  * the guarded casts as `Option`-returning functions (`none` = panic),
  * `TryInto` + `unwrap` in the constructors as an `Option`-returning
    variant (`new?`) of each constructor.
-/

namespace Cpio

/-- Native byte order of the platform; the `Old` format stores its 16-bit
fields in this order, so it is a parameter of the embedding. -/
inductive Endianness
  | little
  | big
deriving DecidableEq

/-- The two native bytes of a `u16` value (`u16::to_ne_bytes`). -/
def u16_to_ne_bytes : Endianness → Nat → List Nat
  | .little, x => [x % 256, x / 256 % 256]
  | .big,    x => [x / 256 % 256, x % 256]

/-- `u16::from_ne_bytes` on two bytes. -/
def u16_from_ne_bytes : Endianness → Nat → Nat → Nat
  | .little, b0, b1 => b0 % 256 + 256 * (b1 % 256)
  | .big,    b0, b1 => 256 * (b0 % 256) + b1 % 256

/-- A `[u8; n]` field: a byte list of statically known length. -/
def Bytes (n : Nat) := { l : List Nat // l.length = n }

/-- `Default` for `[u8; n]`: all zero bytes. -/
def Bytes.zeros (n : Nat) : Bytes n := ⟨List.replicate n 0, List.length_replicate n 0⟩

/-- `TryInto<[u8; n]>` for a byte slice: succeeds iff the length matches. -/
def tryInto (n : Nat) (l : List Nat) : Option (Bytes n) :=
  if h : l.length = n then some ⟨l, h⟩ else none

/-- Size and alignment of a type, as `mem::size_of` / `mem::align_of` report. -/
structure Layout where
  size : Nat
  align : Nat
deriving DecidableEq

/-- Round `n` up to a multiple of `a`. -/
def alignUp (n a : Nat) : Nat := if a = 0 then n else (n + a - 1) / a * a

/-- `#[repr(C)]` field placement: each field goes at the current offset
rounded up to the field's alignment. Returns (end offset, field offsets). -/
def reprCPlace (fs : List Layout) : Nat × List Nat :=
  fs.foldl (fun acc f =>
    let off := alignUp acc.1 f.align
    (off + f.size, acc.2 ++ [off])) (0, [])

/-- The byte offset of each field of a `#[repr(C)]` struct. -/
def reprCOffsets (fs : List Layout) : List Nat := (reprCPlace fs).2

/-- Alignment of a `#[repr(C)]` struct: maximum field alignment (at least 1). -/
def reprCAlign (fs : List Layout) : Nat := fs.foldl (fun a f => max a f.align) 1

/-- `#[repr(C)]` struct layout: fields placed in order, total size rounded
up to the struct alignment. -/
def reprCLayout (fs : List Layout) : Layout :=
  ⟨alignUp (reprCPlace fs).1 (reprCAlign fs), reprCAlign fs⟩

/-- Layout of `u16` (size 2, alignment 2 on every supported platform). -/
def u16Layout : Layout := ⟨2, 2⟩

/-- Layout of `[u16; 2]`. -/
def u16x2Layout : Layout := ⟨4, 2⟩

/-- Layout of `[u8; n]`. -/
def u8ArrayLayout (n : Nat) : Layout := ⟨n, 1⟩

/-- `unsafe fn cast<T, U>`: asserts `size_of_val(a) == size_of::<U>()` and
`align_of_val(a) == align_of::<U>()`, then reinterprets the memory bytes.
`none` models the panic of a failed assertion. -/
def cast (srcSize srcAlign dstSize dstAlign : Nat) (bytes : List Nat) :
    Option (List Nat) :=
  if srcSize = dstSize then
    if srcAlign = dstAlign then some bytes else none
  else none

/-- `unsafe fn cast_no_align<T, U>`: asserts only
`size_of_val(a) == size_of::<U>()` before reinterpreting. -/
def cast_no_align (srcSize dstSize : Nat) (bytes : List Nat) :
    Option (List Nat) :=
  if srcSize = dstSize then some bytes else none

/-- The binary (PWB) header: eleven fields of `u16` / `[u16; 2]` slots. -/
structure OldHeader where
  magic : Nat
  dev : Nat
  ino : Nat
  mode : Nat
  uid : Nat
  gid : Nat
  nlink : Nat
  rdev : Nat
  mtime : Nat × Nat
  namesize : Nat
  filesize : Nat × Nat

/-- `Default` for `OldHeader`: every slot zero. -/
def OldHeader.default : OldHeader :=
  ⟨0, 0, 0, 0, 0, 0, 0, 0, (0, 0), 0, (0, 0)⟩

/-- `#[derive(Clone)]` for `OldHeader`: field-wise copy. -/
def OldHeader.clone (h : OldHeader) : OldHeader :=
  { magic := h.magic, dev := h.dev, ino := h.ino, mode := h.mode,
    uid := h.uid, gid := h.gid, nlink := h.nlink, rdev := h.rdev,
    mtime := h.mtime, namesize := h.namesize, filesize := h.filesize }

/-- `const OLD_HEADER_LEN: usize = 26`. -/
def OLD_HEADER_LEN : Nat := 26

/-- `const OLD_MAGIC: &[u8] = &[199, 113]`. -/
def OLD_MAGIC : List Nat := [199, 113]

/-- The `#[repr(C)]` field layouts of `OldHeader`, in declaration order. -/
def OldHeader.fields : List Layout :=
  [u16Layout, u16Layout, u16Layout, u16Layout, u16Layout, u16Layout,
   u16Layout, u16Layout, u16x2Layout, u16Layout, u16x2Layout]

/-- `mem::size_of` / `mem::align_of` for `OldHeader`. -/
def OldHeader.layout : Layout := reprCLayout OldHeader.fields

/-- `OldHeader::new()` with the `unwrap` of `OLD_MAGIC.try_into()` made
explicit: `none` models a panic. -/
def OldHeader.new? (e : Endianness) : Option OldHeader :=
  (tryInto 2 OLD_MAGIC).map fun m =>
    { OldHeader.default with
      magic := u16_from_ne_bytes e (m.val.getD 0 0) (m.val.getD 1 0) }

/-- `OldHeader::new()`: a zeroed record whose magic slot holds
`u16::from_ne_bytes([199, 113])`. -/
def OldHeader.new (e : Endianness) : OldHeader :=
  { OldHeader.default with magic := u16_from_ne_bytes e 199 113 }

/-- The in-memory bytes of each `OldHeader` field, in declaration order
(no padding: every field is 2-aligned with even size). -/
def OldHeader.fieldBytes (e : Endianness) (h : OldHeader) : List (List Nat) :=
  [u16_to_ne_bytes e h.magic, u16_to_ne_bytes e h.dev, u16_to_ne_bytes e h.ino,
   u16_to_ne_bytes e h.mode, u16_to_ne_bytes e h.uid, u16_to_ne_bytes e h.gid,
   u16_to_ne_bytes e h.nlink, u16_to_ne_bytes e h.rdev,
   u16_to_ne_bytes e h.mtime.1 ++ u16_to_ne_bytes e h.mtime.2,
   u16_to_ne_bytes e h.namesize,
   u16_to_ne_bytes e h.filesize.1 ++ u16_to_ne_bytes e h.filesize.2]

/-- The full in-memory byte image of an `OldHeader`. -/
def OldHeader.memBytes (e : Endianness) (h : OldHeader) : List Nat :=
  (OldHeader.fieldBytes e h).flatten

/-- `OldHeader::as_bytes`: `cast_no_align::<_, [u8; OLD_HEADER_LEN]>(self)`. -/
def OldHeader.as_bytes (e : Endianness) (h : OldHeader) : Option (List Nat) :=
  cast_no_align OldHeader.layout.size (u8ArrayLayout OLD_HEADER_LEN).size
    (OldHeader.memBytes e h)

/-- A call of the `&self` method `as_bytes`: the receiver is returned
unchanged next to the result (the method cannot mutate it). -/
def OldHeader.as_bytes_call (e : Endianness) (h : OldHeader) :
    OldHeader × Option (List Nat) :=
  (h, OldHeader.as_bytes e h)

/-- The portable ASCII (odc) header: eleven decimal-ASCII byte-array fields. -/
structure OdcHeader where
  magic : Bytes 6
  dev : Bytes 6
  ino : Bytes 6
  mode : Bytes 6
  uid : Bytes 6
  gid : Bytes 6
  nlink : Bytes 6
  rdev : Bytes 6
  mtime : Bytes 11
  namesize : Bytes 6
  filesize : Bytes 11

/-- `Default` for `OdcHeader`: every byte zero. -/
def OdcHeader.default : OdcHeader :=
  ⟨Bytes.zeros 6, Bytes.zeros 6, Bytes.zeros 6, Bytes.zeros 6, Bytes.zeros 6,
   Bytes.zeros 6, Bytes.zeros 6, Bytes.zeros 6, Bytes.zeros 11, Bytes.zeros 6,
   Bytes.zeros 11⟩

/-- `#[derive(Clone)]` for `OdcHeader`: field-wise copy. -/
def OdcHeader.clone (h : OdcHeader) : OdcHeader :=
  { magic := h.magic, dev := h.dev, ino := h.ino, mode := h.mode,
    uid := h.uid, gid := h.gid, nlink := h.nlink, rdev := h.rdev,
    mtime := h.mtime, namesize := h.namesize, filesize := h.filesize }

/-- `const ODC_HEADER_LEN: usize = 76`. -/
def ODC_HEADER_LEN : Nat := 76

/-- `const ODC_MAGIC: &[u8] = b"070707"`. -/
def ODC_MAGIC : List Nat := [48, 55, 48, 55, 48, 55]

/-- The `#[repr(C)]` field layouts of `OdcHeader`, in declaration order. -/
def OdcHeader.fields : List Layout :=
  [u8ArrayLayout 6, u8ArrayLayout 6, u8ArrayLayout 6, u8ArrayLayout 6,
   u8ArrayLayout 6, u8ArrayLayout 6, u8ArrayLayout 6, u8ArrayLayout 6,
   u8ArrayLayout 11, u8ArrayLayout 6, u8ArrayLayout 11]

/-- `mem::size_of` / `mem::align_of` for `OdcHeader`. -/
def OdcHeader.layout : Layout := reprCLayout OdcHeader.fields

/-- `OdcHeader::new()` with the `unwrap` of `ODC_MAGIC.try_into()` made
explicit: `none` models a panic. -/
def OdcHeader.new? : Option OdcHeader :=
  (tryInto 6 ODC_MAGIC).map fun m => { OdcHeader.default with magic := m }

/-- `OdcHeader::new()`: a zeroed record stamped with magic `"070707"`. -/
def OdcHeader.new : OdcHeader :=
  { OdcHeader.default with magic := ⟨ODC_MAGIC, rfl⟩ }

/-- The in-memory bytes of each `OdcHeader` field, in declaration order. -/
def OdcHeader.fieldBytes (h : OdcHeader) : List (List Nat) :=
  [h.magic.val, h.dev.val, h.ino.val, h.mode.val, h.uid.val, h.gid.val,
   h.nlink.val, h.rdev.val, h.mtime.val, h.namesize.val, h.filesize.val]

/-- The full in-memory byte image of an `OdcHeader`. -/
def OdcHeader.memBytes (h : OdcHeader) : List Nat :=
  (OdcHeader.fieldBytes h).flatten

/-- `OdcHeader::as_bytes`: `cast::<_, [u8; ODC_HEADER_LEN]>(self)`. -/
def OdcHeader.as_bytes (h : OdcHeader) : Option (List Nat) :=
  cast OdcHeader.layout.size OdcHeader.layout.align
    (u8ArrayLayout ODC_HEADER_LEN).size (u8ArrayLayout ODC_HEADER_LEN).align
    (OdcHeader.memBytes h)

/-- A call of the `&self` method `as_bytes` on an `OdcHeader`. -/
def OdcHeader.as_bytes_call (h : OdcHeader) : OdcHeader × Option (List Nat) :=
  (h, OdcHeader.as_bytes h)

/-- The SVR4 (newc) header: fourteen hex-ASCII byte-array fields. -/
structure NewcHeader where
  magic : Bytes 6
  ino : Bytes 8
  mode : Bytes 8
  uid : Bytes 8
  gid : Bytes 8
  nlink : Bytes 8
  mtime : Bytes 8
  filesize : Bytes 8
  devmajor : Bytes 8
  devminor : Bytes 8
  rdevmajor : Bytes 8
  rdevminor : Bytes 8
  namesize : Bytes 8
  check : Bytes 8

/-- `Default` for `NewcHeader`: every byte zero. -/
def NewcHeader.default : NewcHeader :=
  ⟨Bytes.zeros 6, Bytes.zeros 8, Bytes.zeros 8, Bytes.zeros 8, Bytes.zeros 8,
   Bytes.zeros 8, Bytes.zeros 8, Bytes.zeros 8, Bytes.zeros 8, Bytes.zeros 8,
   Bytes.zeros 8, Bytes.zeros 8, Bytes.zeros 8, Bytes.zeros 8⟩

/-- `#[derive(Clone)]` for `NewcHeader`: field-wise copy. -/
def NewcHeader.clone (h : NewcHeader) : NewcHeader :=
  { magic := h.magic, ino := h.ino, mode := h.mode, uid := h.uid, gid := h.gid,
    nlink := h.nlink, mtime := h.mtime, filesize := h.filesize,
    devmajor := h.devmajor, devminor := h.devminor, rdevmajor := h.rdevmajor,
    rdevminor := h.rdevminor, namesize := h.namesize, check := h.check }

/-- `const NEWC_HEADER_LEN: usize = 110`. -/
def NEWC_HEADER_LEN : Nat := 110

/-- `const NEWC_MAGIC: &[u8] = b"070701"`. -/
def NEWC_MAGIC : List Nat := [48, 55, 48, 55, 48, 49]

/-- `const CRC_MAGIC: &[u8] = b"070702"`. -/
def CRC_MAGIC : List Nat := [48, 55, 48, 55, 48, 50]

/-- The `#[repr(C)]` field layouts of `NewcHeader`, in declaration order. -/
def NewcHeader.fields : List Layout :=
  [u8ArrayLayout 6, u8ArrayLayout 8, u8ArrayLayout 8, u8ArrayLayout 8,
   u8ArrayLayout 8, u8ArrayLayout 8, u8ArrayLayout 8, u8ArrayLayout 8,
   u8ArrayLayout 8, u8ArrayLayout 8, u8ArrayLayout 8, u8ArrayLayout 8,
   u8ArrayLayout 8, u8ArrayLayout 8]

/-- `mem::size_of` / `mem::align_of` for `NewcHeader`. -/
def NewcHeader.layout : Layout := reprCLayout NewcHeader.fields

/-- `NewcHeader::new()` with the `unwrap` of `NEWC_MAGIC.try_into()` made
explicit: `none` models a panic. -/
def NewcHeader.new? : Option NewcHeader :=
  (tryInto 6 NEWC_MAGIC).map fun m => { NewcHeader.default with magic := m }

/-- `NewcHeader::new()`: a zeroed record stamped with magic `"070701"`. -/
def NewcHeader.new : NewcHeader :=
  { NewcHeader.default with magic := ⟨NEWC_MAGIC, rfl⟩ }

/-- `<NewcHeader as CRCHeaderExt>::new_crc()` with the `unwrap` of
`CRC_MAGIC.try_into()` made explicit: `none` models a panic. -/
def NewcHeader.new_crc? : Option NewcHeader :=
  (tryInto 6 CRC_MAGIC).map fun m => { NewcHeader.default with magic := m }

/-- `NewcHeader::new_crc()`: a zeroed record stamped with magic `"070702"`. -/
def NewcHeader.new_crc : NewcHeader :=
  { NewcHeader.default with magic := ⟨CRC_MAGIC, rfl⟩ }

/-- The in-memory bytes of each `NewcHeader` field, in declaration order. -/
def NewcHeader.fieldBytes (h : NewcHeader) : List (List Nat) :=
  [h.magic.val, h.ino.val, h.mode.val, h.uid.val, h.gid.val, h.nlink.val,
   h.mtime.val, h.filesize.val, h.devmajor.val, h.devminor.val,
   h.rdevmajor.val, h.rdevminor.val, h.namesize.val, h.check.val]

/-- The full in-memory byte image of a `NewcHeader`. -/
def NewcHeader.memBytes (h : NewcHeader) : List Nat :=
  (NewcHeader.fieldBytes h).flatten

/-- `NewcHeader::as_bytes`: `cast::<_, [u8; NEWC_HEADER_LEN]>(self)`. -/
def NewcHeader.as_bytes (h : NewcHeader) : Option (List Nat) :=
  cast NewcHeader.layout.size NewcHeader.layout.align
    (u8ArrayLayout NEWC_HEADER_LEN).size (u8ArrayLayout NEWC_HEADER_LEN).align
    (NewcHeader.memBytes h)

/-- A call of the `&self` method `as_bytes` on a `NewcHeader`. -/
def NewcHeader.as_bytes_call (h : NewcHeader) : NewcHeader × Option (List Nat) :=
  (h, NewcHeader.as_bytes h)

/-! ### Helper lemmas -/

lemma length_u16_to_ne_bytes (e : Endianness) (x : Nat) :
    (u16_to_ne_bytes e x).length = 2 := by
  cases e <;> rfl

lemma old_layout_eq : OldHeader.layout = ⟨26, 2⟩ := by decide

lemma odc_layout_eq : OdcHeader.layout = ⟨76, 1⟩ := by decide

lemma newc_layout_eq : NewcHeader.layout = ⟨110, 1⟩ := by decide

/-- The size assertion in `OldHeader::as_bytes` passes, so the cast
returns the memory image. -/
lemma old_as_bytes_some (e : Endianness) (h : OldHeader) :
    OldHeader.as_bytes e h = some (OldHeader.memBytes e h) := rfl

/-- Both assertions in `OdcHeader::as_bytes` pass. -/
lemma odc_as_bytes_some (h : OdcHeader) :
    OdcHeader.as_bytes h = some (OdcHeader.memBytes h) := rfl

/-- Both assertions in `NewcHeader::as_bytes` pass. -/
lemma newc_as_bytes_some (h : NewcHeader) :
    NewcHeader.as_bytes h = some (NewcHeader.memBytes h) := rfl

lemma old_length_memBytes (e : Endianness) (h : OldHeader) :
    (OldHeader.memBytes e h).length = 26 := by
  simp [OldHeader.memBytes, OldHeader.fieldBytes, length_u16_to_ne_bytes]

lemma odc_length_memBytes (h : OdcHeader) :
    (OdcHeader.memBytes h).length = 76 := by
  simp [OdcHeader.memBytes, OdcHeader.fieldBytes, h.magic.2, h.dev.2, h.ino.2,
    h.mode.2, h.uid.2, h.gid.2, h.nlink.2, h.rdev.2, h.mtime.2, h.namesize.2,
    h.filesize.2]

lemma newc_length_memBytes (h : NewcHeader) :
    (NewcHeader.memBytes h).length = 110 := by
  simp [NewcHeader.memBytes, NewcHeader.fieldBytes, h.magic.2, h.ino.2,
    h.mode.2, h.uid.2, h.gid.2, h.nlink.2, h.mtime.2, h.filesize.2,
    h.devmajor.2, h.devminor.2, h.rdevmajor.2, h.rdevminor.2, h.namesize.2,
    h.check.2]

/-- Extracting one chunk out of a concatenation of chunks: dropping the
total length of the preceding chunks and taking the chunk's length
recovers the chunk. -/
lemma flatten_extract (pre : List (List Nat)) (c : List Nat)
    (post : List (List Nat)) :
    (((pre ++ c :: post).flatten).drop ((pre.map List.length).sum)).take
      c.length = c := by
  induction pre with
  | nil => simp [List.take_left]
  | cons p ps ih =>
    simp [Nat.add_comm, List.drop_append, ih]

lemma old_extract_dev (e : Endianness) (h : OldHeader) :
    ((OldHeader.memBytes e h).drop 2).take 2 = u16_to_ne_bytes e h.dev := by
  simp [OldHeader.memBytes, OldHeader.fieldBytes, length_u16_to_ne_bytes]

lemma old_extract_mtime (e : Endianness) (h : OldHeader) :
    ((OldHeader.memBytes e h).drop 16).take 4 =
      u16_to_ne_bytes e h.mtime.1 ++ u16_to_ne_bytes e h.mtime.2 := by
  have key := flatten_extract
    [u16_to_ne_bytes e h.magic, u16_to_ne_bytes e h.dev, u16_to_ne_bytes e h.ino,
     u16_to_ne_bytes e h.mode, u16_to_ne_bytes e h.uid, u16_to_ne_bytes e h.gid,
     u16_to_ne_bytes e h.nlink, u16_to_ne_bytes e h.rdev]
    (u16_to_ne_bytes e h.mtime.1 ++ u16_to_ne_bytes e h.mtime.2)
    [u16_to_ne_bytes e h.namesize,
     u16_to_ne_bytes e h.filesize.1 ++ u16_to_ne_bytes e h.filesize.2]
  simpa [OldHeader.memBytes, OldHeader.fieldBytes, length_u16_to_ne_bytes]
    using key

lemma newc_extract_ino (h : NewcHeader) :
    ((NewcHeader.memBytes h).drop 6).take 8 = h.ino.val := by
  simp [NewcHeader.memBytes, NewcHeader.fieldBytes, h.magic.2, h.ino.2]

lemma newc_extract_check (h : NewcHeader) :
    ((NewcHeader.memBytes h).drop 102).take 8 = h.check.val := by
  have key := flatten_extract
    [h.magic.val, h.ino.val, h.mode.val, h.uid.val, h.gid.val, h.nlink.val,
     h.mtime.val, h.filesize.val, h.devmajor.val, h.devminor.val,
     h.rdevmajor.val, h.rdevminor.val, h.namesize.val] h.check.val []
  simpa [NewcHeader.memBytes, NewcHeader.fieldBytes, h.magic.2, h.ino.2,
    h.mode.2, h.uid.2, h.gid.2, h.nlink.2, h.mtime.2, h.filesize.2,
    h.devmajor.2, h.devminor.2, h.rdevmajor.2, h.rdevminor.2, h.namesize.2,
    h.check.2] using key

/-! ### Claim theorems -/

/-- C1: for every variant, the byte sequence returned by `as_bytes` has
exactly the variant's declared length — 26 for `Old`, 76 for `Odc`, 110 for
`Newc` and `Newc-CRC` — on the freshly constructed record and on every
other record alike, so the length never varies with field contents. -/
theorem C1_exact_length :
    (∀ (e : Endianness) (h : OldHeader),
      (OldHeader.as_bytes e h).map List.length = some OLD_HEADER_LEN)
    ∧ (∀ h : OdcHeader,
      (OdcHeader.as_bytes h).map List.length = some ODC_HEADER_LEN)
    ∧ (∀ h : NewcHeader,
      (NewcHeader.as_bytes h).map List.length = some NEWC_HEADER_LEN) := by
  refine ⟨fun e h => ?_, fun h => ?_, fun h => ?_⟩ <;>
    simp [old_as_bytes_some, odc_as_bytes_some, newc_as_bytes_some,
      old_length_memBytes, odc_length_memBytes, newc_length_memBytes,
      OLD_HEADER_LEN, ODC_HEADER_LEN, NEWC_HEADER_LEN]

/-- C2: for every variant, the projected bytes of a freshly constructed
record begin with the variant's magic bytes (`[0xC7, 0x71]` for `Old` in
native order, `"070707"` for `Odc`, `"070701"` for `Newc`, `"070702"` for
`Newc-CRC`) and every byte after the magic field is zero. -/
theorem C2_magic_then_zeros :
    (∀ e : Endianness, OldHeader.as_bytes e (OldHeader.new e) =
      some (OLD_MAGIC ++ List.replicate 24 0))
    ∧ OdcHeader.as_bytes OdcHeader.new =
      some (ODC_MAGIC ++ List.replicate 70 0)
    ∧ NewcHeader.as_bytes NewcHeader.new =
      some (NEWC_MAGIC ++ List.replicate 104 0)
    ∧ NewcHeader.as_bytes NewcHeader.new_crc =
      some (CRC_MAGIC ++ List.replicate 104 0) := by
  refine ⟨fun e => ?_, by decide, by decide, by decide⟩
  cases e <;> decide

/-- C3 counterexample: the `Old` variant's projection does NOT assert memory
alignment. `OldHeader` has alignment 2 while the byte-array view has
alignment 1, so the alignment precondition is violated for every `Old`
record; yet `as_bytes` succeeds, whereas the alignment-asserting cast at the
same layouts fails. Hence `Old`'s projection checks size only, refuting the
claim that both size and alignment are asserted for `Old`. -/
theorem C3_counterexample :
    OldHeader.layout.align = 2
    ∧ (u8ArrayLayout OLD_HEADER_LEN).align = 1
    ∧ (OldHeader.as_bytes .little (OldHeader.new .little)).isSome = true
    ∧ cast OldHeader.layout.size OldHeader.layout.align
        (u8ArrayLayout OLD_HEADER_LEN).size (u8ArrayLayout OLD_HEADER_LEN).align
        (OldHeader.memBytes .little (OldHeader.new .little)) = none := by
  refine ⟨by decide, by decide, by decide, by decide⟩

/-- C3 amended: at projection each variant performs the strictest layout
check its composition allows: the byte-dense `Odc` and `Newc` variants
assert both size and alignment (`cast` succeeds exactly when both match),
while `Old` — whose alignment 2 can never equal the byte view's alignment
1 — asserts size only (`cast_no_align` succeeds exactly when the size
matches, for any bytes); the size check is never skipped for any variant. -/
theorem C3_amended_checks :
    (∀ (sz : Nat) (b : List Nat),
      (cast_no_align sz (u8ArrayLayout OLD_HEADER_LEN).size b).isSome =
        decide (sz = OLD_HEADER_LEN))
    ∧ (∀ (sz al : Nat) (b : List Nat),
      (cast sz al (u8ArrayLayout ODC_HEADER_LEN).size
        (u8ArrayLayout ODC_HEADER_LEN).align b).isSome =
        (decide (sz = ODC_HEADER_LEN) && decide (al = 1)))
    ∧ (∀ (sz al : Nat) (b : List Nat),
      (cast sz al (u8ArrayLayout NEWC_HEADER_LEN).size
        (u8ArrayLayout NEWC_HEADER_LEN).align b).isSome =
        (decide (sz = NEWC_HEADER_LEN) && decide (al = 1)))
    ∧ OldHeader.layout.align = 2 := by
  refine ⟨fun sz b => ?_, fun sz al b => ?_, fun sz al b => ?_, by decide⟩
  · by_cases h1 : sz = OLD_HEADER_LEN <;>
      simp_all [cast_no_align, u8ArrayLayout, OLD_HEADER_LEN]
  · by_cases h1 : sz = ODC_HEADER_LEN <;> by_cases h2 : al = 1 <;>
      simp_all [cast, u8ArrayLayout, ODC_HEADER_LEN]
  · by_cases h1 : sz = NEWC_HEADER_LEN <;> by_cases h2 : al = 1 <;>
      simp_all [cast, u8ArrayLayout, NEWC_HEADER_LEN]

/-- C4: the projected bytes of a fresh `Newc-CRC` record differ from those
of a fresh `Newc` record only within the 6-byte magic field at offset 0;
every byte from offset 6 on is zero in both, and the magic fields hold
`"070701"` and `"070702"` respectively (they differ in the last byte,
49 vs 50). Both are records of the one `NewcHeader` shape. -/
theorem C4_crc_differs_only_in_magic :
    NewcHeader.as_bytes NewcHeader.new =
      some (NewcHeader.memBytes NewcHeader.new)
    ∧ NewcHeader.as_bytes NewcHeader.new_crc =
      some (NewcHeader.memBytes NewcHeader.new_crc)
    ∧ (NewcHeader.memBytes NewcHeader.new).take 6 = NEWC_MAGIC
    ∧ (NewcHeader.memBytes NewcHeader.new_crc).take 6 = CRC_MAGIC
    ∧ (NewcHeader.memBytes NewcHeader.new).drop 6 =
        (NewcHeader.memBytes NewcHeader.new_crc).drop 6
    ∧ (NewcHeader.memBytes NewcHeader.new).drop 6 = List.replicate 104 0
    ∧ NEWC_MAGIC.getD 5 0 = 49 ∧ CRC_MAGIC.getD 5 0 = 50 := by
  refine ⟨by decide, by decide, by decide, by decide, by decide, by decide,
    by decide, by decide⟩

/-- C5: in every variant each field sits in the projected bytes at exactly
the sum of the declared widths of the preceding fields — the `#[repr(C)]`
offsets are the padding-free cumulative width sums — and in particular
`Old`'s `dev` is at offset 2 and `mtime` at offset 16, and `Newc`'s `ino`
is at offset 6 and `check` at offset 102: extracting at those offsets from
any record's byte image recovers exactly that field's bytes. -/
theorem C5_field_offsets :
    (∀ k : Fin 11, (reprCOffsets OldHeader.fields).getD k.val 0 =
      ((OldHeader.fields.take k.val).map Layout.size).sum)
    ∧ (∀ k : Fin 11, (reprCOffsets OdcHeader.fields).getD k.val 0 =
      ((OdcHeader.fields.take k.val).map Layout.size).sum)
    ∧ (∀ k : Fin 14, (reprCOffsets NewcHeader.fields).getD k.val 0 =
      ((NewcHeader.fields.take k.val).map Layout.size).sum)
    ∧ (reprCOffsets OldHeader.fields).getD 1 0 = 2
    ∧ (reprCOffsets OldHeader.fields).getD 8 0 = 16
    ∧ (reprCOffsets NewcHeader.fields).getD 1 0 = 6
    ∧ (reprCOffsets NewcHeader.fields).getD 13 0 = 102
    ∧ (∀ (e : Endianness) (h : OldHeader),
        ((OldHeader.memBytes e h).drop 2).take 2 = u16_to_ne_bytes e h.dev)
    ∧ (∀ (e : Endianness) (h : OldHeader),
        ((OldHeader.memBytes e h).drop 16).take 4 =
          u16_to_ne_bytes e h.mtime.1 ++ u16_to_ne_bytes e h.mtime.2)
    ∧ (∀ h : NewcHeader, ((NewcHeader.memBytes h).drop 6).take 8 = h.ino.val)
    ∧ (∀ h : NewcHeader,
        ((NewcHeader.memBytes h).drop 102).take 8 = h.check.val) := by
  refine ⟨by decide, by decide, by decide, by decide, by decide, by decide,
    by decide, old_extract_dev, old_extract_mtime, newc_extract_ino,
    newc_extract_check⟩

/-- C6: construction is total for all four entry points: with the
`try_into().unwrap()` modelled explicitly as an `Option`, `new?` never
returns `none` — each constructor always yields the fully formed record. -/
theorem C6_construction_total :
    (∀ e : Endianness, OldHeader.new? e = some (OldHeader.new e))
    ∧ OdcHeader.new? = some OdcHeader.new
    ∧ NewcHeader.new? = some NewcHeader.new
    ∧ NewcHeader.new_crc? = some NewcHeader.new_crc := by
  refine ⟨fun e => ?_, rfl, rfl, rfl⟩
  cases e <;> rfl

/-- C7: for every variant, cloning a record (field-wise copy, as the
derived `Clone` does) and projecting both the original and the clone
yields identical byte sequences. -/
theorem C7_clone_same_projection :
    (∀ (e : Endianness) (h : OldHeader),
      OldHeader.as_bytes e (OldHeader.clone h) = OldHeader.as_bytes e h)
    ∧ (∀ h : OdcHeader,
      OdcHeader.as_bytes (OdcHeader.clone h) = OdcHeader.as_bytes h)
    ∧ (∀ h : NewcHeader,
      NewcHeader.as_bytes (NewcHeader.clone h) = NewcHeader.as_bytes h) :=
  ⟨fun _ _ => rfl, fun _ => rfl, fun _ => rfl⟩

/-- C8: for every variant, a call of `as_bytes` leaves the record
unchanged, and a second call on the returned receiver yields a byte
sequence identical to the first — projection is idempotent and
side-effect-free. -/
theorem C8_projection_idempotent :
    (∀ (e : Endianness) (h : OldHeader),
      (OldHeader.as_bytes_call e h).1 = h ∧
      (OldHeader.as_bytes_call e ((OldHeader.as_bytes_call e h).1)).2 =
        (OldHeader.as_bytes_call e h).2)
    ∧ (∀ h : OdcHeader,
      (OdcHeader.as_bytes_call h).1 = h ∧
      (OdcHeader.as_bytes_call ((OdcHeader.as_bytes_call h).1)).2 =
        (OdcHeader.as_bytes_call h).2)
    ∧ (∀ h : NewcHeader,
      (NewcHeader.as_bytes_call h).1 = h ∧
      (NewcHeader.as_bytes_call ((NewcHeader.as_bytes_call h).1)).2 =
        (NewcHeader.as_bytes_call h).2) :=
  ⟨fun _ _ => ⟨rfl, rfl⟩, fun _ => ⟨rfl, rfl⟩, fun _ => ⟨rfl, rfl⟩⟩

/-- C9: on both byte orders, `u16::from_ne_bytes([0xC7, 0x71])` followed by
viewing the native bytes is the identity on those two bytes, so the first
two projected bytes of a fresh `Old` record are `[0xC7, 0x71]` regardless
of endianness. -/
theorem C9_old_magic_endianness_roundtrip :
    (∀ e : Endianness,
      u16_to_ne_bytes e (u16_from_ne_bytes e 199 113) = OLD_MAGIC)
    ∧ (∀ e : Endianness,
      (OldHeader.as_bytes e (OldHeader.new e)).map (List.take 2) =
        some OLD_MAGIC) := by
  constructor <;> (intro e; cases e <;> decide)

/-- C10: for the three header types as defined — `OldHeader` with eleven
16-bit-slot fields totalling 26 bytes, `OdcHeader` with 76 array bytes,
`NewcHeader` with 110 array bytes — the size and alignment assertions
inside `cast` / `cast_no_align` always hold, so `as_bytes` never panics
on any record of these types. -/
theorem C10_layout_assertions_hold :
    OldHeader.layout = ⟨26, 2⟩
    ∧ OdcHeader.layout = ⟨76, 1⟩
    ∧ NewcHeader.layout = ⟨110, 1⟩
    ∧ OldHeader.fields.length = 11
    ∧ (∀ (e : Endianness) (h : OldHeader),
        (OldHeader.as_bytes e h).isSome = true)
    ∧ (∀ h : OdcHeader, (OdcHeader.as_bytes h).isSome = true)
    ∧ (∀ h : NewcHeader, (NewcHeader.as_bytes h).isSome = true) := by
  refine ⟨by decide, by decide, by decide, by decide, fun e h => ?_,
    fun h => ?_, fun h => ?_⟩ <;>
    simp [old_as_bytes_some, odc_as_bytes_some, newc_as_bytes_some]

end Cpio
